import Mathlib

/-!
Verification of `add_icon.py`: a script that composites an icon onto the
bottom-right corner of a base image.

The script is embedded shallowly:

* Python `int` values become `ℤ` (image dimensions, which PIL reports as
  non-negative, become `ℕ` where the source guarantees non-negativity);
* Python float arithmetic (`/`, `*` on floats) is modelled exactly by `ℚ`;
  `int(x)` on a float is truncation toward zero (`pyInt`);
* fallible steps return `Except PyErr _`; the `try/except` of
  `_add_icon_to_single_image` becomes a `match` on that `Except`;
* the file system, image decoding and Pillow's per-pixel raster routines
  (LANCZOS resampling, paste blending, alpha compositing) are environment
  functions collected in a `World` record: the script's own logic (all
  dimension arithmetic, geometry, path strings and control flow) is modelled
  from the source, while the pixel-level arithmetic of the Pillow library is
  an arbitrary `World` parameter, since no property below depends on pixel
  values;
* `os.path.split`, `os.path.splitext` and `os.path.join` are translated from
  CPython's `posixpath`/`genericpath` implementations, over `List Char`;
* Pillow's `Image.resize` rejects target sizes with a dimension `< 1`
  (`ValueError: height and width must be > 0` in `_imaging.c`); that check is
  part of the resize model.
-/

/-- `IMAGE_HEIGHT_TO_ICON_HEIGHT_RATIO = 40` (src/add_icon.py line 40). -/
def IMAGE_HEIGHT_TO_ICON_HEIGHT_RATIO : ℕ := 40

/-- `IMAGE_HEIGHT_TO_PADDING_RATIO = 100` (src/add_icon.py line 41). -/
def IMAGE_HEIGHT_TO_PADDING_RATIO : ℕ := 100

/-- Python's `int()` applied to a float: truncation toward zero.
The source's float arithmetic is modelled exactly by `ℚ`. -/
def pyInt (q : ℚ) : ℤ := if 0 ≤ q then ⌊q⌋ else -⌊-q⌋

/-- An image size, PIL's `Image.size` pair `(width, height)`. -/
structure Size where
  w : ℕ
  h : ℕ
  deriving DecidableEq

/-- The Python exceptions the script can encounter. -/
inductive PyErr where
  /-- `FileNotFoundError`: a path does not resolve to a readable file. -/
  | fileNotFoundError
  /-- an unreadable / corrupt image file (PIL `UnidentifiedImageError`). -/
  | decodeError
  /-- `ZeroDivisionError`: division by zero. -/
  | zeroDivisionError
  /-- `ValueError`: e.g. a resize target dimension `< 1`. -/
  | valueError
  /-- `OSError` while writing the output file. -/
  | writeError
  deriving DecidableEq

instance {ε α : Type} [DecidableEq ε] [DecidableEq α] : DecidableEq (Except ε α)
  | .ok x, .ok y =>
    if h : x = y then .isTrue (congrArg Except.ok h)
    else .isFalse (fun hc => h (Except.ok.inj hc))
  | .ok _, .error _ => .isFalse (fun hc => Except.noConfusion hc)
  | .error _, .ok _ => .isFalse (fun hc => Except.noConfusion hc)
  | .error e, .error f =>
    if h : e = f then .isTrue (congrArg Except.error h)
    else .isFalse (fun hc => h (Except.error.inj hc))

/-- Dimension computation of `_resize_icon` (src/add_icon.py lines 55-74):
`new_icon_height = base_height / 40` (float), `aspect_ratio = icon_width /
icon_height` (raises `ZeroDivisionError` when the icon height is 0),
`new_icon_width = int(new_icon_height * aspect_ratio)` — note: from the
UNtruncated float height — and the resize target is
`(new_icon_width, int(new_icon_height))`. Pillow's `Image.resize` raises
`ValueError` when either target dimension is `< 1`. -/
def resizeSize (iconSize : Size) (baseHeight : ℤ) : Except PyErr Size :=
  if iconSize.h = 0 then .error .zeroDivisionError
  else
    let newIconHeight : ℚ := (baseHeight : ℚ) / IMAGE_HEIGHT_TO_ICON_HEIGHT_RATIO
    let aspectRatio : ℚ := (iconSize.w : ℚ) / (iconSize.h : ℚ)
    let newIconWidth : ℤ := pyInt (newIconHeight * aspectRatio)
    let newIconHeightInt : ℤ := pyInt newIconHeight
    if newIconWidth < 1 ∨ newIconHeightInt < 1 then .error .valueError
    else .ok ⟨newIconWidth.toNat, newIconHeightInt.toNat⟩

/-- The resize-dimension computation as the specification words it: the new
width is scaled from the ALREADY TRUNCATED new height. Written from the
spec's sentence, to be compared with `resizeSize`, which follows the source. -/
def resizeSizeSpecOrder (iconSize : Size) (baseHeight : ℤ) : Except PyErr Size :=
  if iconSize.h = 0 then .error .zeroDivisionError
  else
    let newIconHeight : ℚ := (baseHeight : ℚ) / IMAGE_HEIGHT_TO_ICON_HEIGHT_RATIO
    let aspectRatio : ℚ := (iconSize.w : ℚ) / (iconSize.h : ℚ)
    let newIconHeightInt : ℤ := pyInt newIconHeight
    let newIconWidth : ℤ := pyInt ((newIconHeightInt : ℚ) * aspectRatio)
    if newIconWidth < 1 ∨ newIconHeightInt < 1 then .error .valueError
    else .ok ⟨newIconWidth.toNat, newIconHeightInt.toNat⟩

/-- An RGBA pixel value. -/
structure Pixel where
  r : ℕ
  g : ℕ
  b : ℕ
  a : ℕ

/-- An in-memory image: a size plus a pixel lookup (coordinates as Python
ints; only coordinates inside the size rectangle are meaningful). -/
structure PImage where
  size : Size
  px : ℤ → ℤ → Pixel

/-- The environment the script runs against: the file system (`openImage`
models `Image.open(...).convert("RGBA")`, `isDir` and `listDir` model
`os.path.isdir` / `os.listdir`, `saveOk` tells whether writing a path
succeeds) and Pillow's per-pixel raster arithmetic (`lanczosPx` the LANCZOS
resampling kernel, `pastePx` the masked-paste blend, `overPx` the
`alpha_composite` source-over blend), which is library code outside this
repository and on which no claim below depends. -/
structure World where
  openImage : List Char → Except PyErr PImage
  isDir : List Char → Bool
  listDir : List Char → List (List Char)
  saveOk : List Char → Bool
  lanczosPx : Size → PImage → ℤ → ℤ → Pixel
  pastePx : Pixel → Pixel → Pixel → Pixel
  overPx : Pixel → Pixel → Pixel

/-- `_resize_icon` (src/add_icon.py lines 55-74): the dimension computation
`resizeSize` plus the resampled image returned by `icon_image.resize(...,
Image.Resampling.LANCZOS)`. -/
def resizeIcon (w : World) (iconImage : PImage) (baseHeight : ℤ) :
    Except PyErr PImage :=
  match resizeSize iconImage.size baseHeight with
  | .error e => .error e
  | .ok s => .ok ⟨s, fun x y => w.lanczosPx s iconImage x y⟩

/-- `_calculate_position` (src/add_icon.py lines 76-91): padding is
`int(base_height / 100)`; the returned top-left paste coordinate is
`(base_width - icon_width - padding, base_height - icon_height - padding)`
as Python ints — possibly negative, with no clamping. -/
def calculatePosition (baseSize iconSize : Size) : ℤ × ℤ :=
  let padding : ℤ := pyInt ((baseSize.h : ℚ) / IMAGE_HEIGHT_TO_PADDING_RATIO)
  ((baseSize.w : ℤ) - (iconSize.w : ℤ) - padding,
   (baseSize.h : ℤ) - (iconSize.h : ℤ) - padding)

/-- `Image.new("RGBA", size, color)`: a constant image of the given size. -/
def imageNew (s : Size) (c : Pixel) : PImage := ⟨s, fun _ _ => c⟩

/-- `dst.paste(src, position, mask)`: pixels in the paste rectangle are
blended from the source through the mask's alpha; everything else is left
unchanged. A negative or out-of-range position simply crops the source at
the image edge (Pillow accepts any integer position). In the source the
mask is the pasted icon itself. -/
def pasteMask (w : World) (dst src : PImage) (position : ℤ × ℤ)
    (mask : PImage) : PImage :=
  ⟨dst.size, fun x y =>
    if position.1 ≤ x ∧ x < position.1 + (src.size.w : ℤ) ∧
       position.2 ≤ y ∧ y < position.2 + (src.size.h : ℤ) then
      w.pastePx (src.px (x - position.1) (y - position.2)) (dst.px x y)
        (mask.px (x - position.1) (y - position.2))
    else dst.px x y⟩

/-- `Image.alpha_composite(im1, im2)`: composites `im2` over `im1`; raises
`ValueError` when the two sizes differ. -/
def alphaComposite (w : World) (im1 im2 : PImage) : Except PyErr PImage :=
  if im1.size = im2.size then
    .ok ⟨im1.size, fun x y => w.overPx (im2.px x y) (im1.px x y)⟩
  else .error .valueError

/-- The format string the script passes to `Image.save`. -/
inductive ImageFormat where
  | PNG
  | JPEG
  deriving DecidableEq

/-- A file written by the script: where, which image, in which format. -/
structure SaveEvent where
  path : List Char
  img : PImage
  format : ImageFormat

/-- The image built by `_composite_and_save` (src/add_icon.py lines 110-121)
before saving: a transparent layer of the base image's size, the icon pasted
onto it (masked by its own alpha), alpha-composited over the base. -/
def compositedImage (w : World) (baseImage iconImage : PImage)
    (position : ℤ × ℤ) : Except PyErr PImage :=
  let iconLayer := imageNew baseImage.size ⟨0, 0, 0, 0⟩
  let pasted := pasteMask w iconLayer iconImage position iconImage
  alphaComposite w baseImage pasted

/-- `_composite_and_save` (src/add_icon.py lines 110-125): builds
`compositedImage` and executes `final_image.save(output_path, "PNG")` — the
format is the fixed literal `"PNG"`. A failing write raises `OSError`. -/
def compositeAndSave (w : World) (baseImage iconImage : PImage)
    (position : ℤ × ℤ) (outputPath : List Char) : Except PyErr SaveEvent :=
  match compositedImage w baseImage iconImage position with
  | .error e => .error e
  | .ok finalImage =>
    if w.saveOk outputPath then .ok ⟨outputPath, finalImage, .PNG⟩
    else .error .writeError

/-- Index of the last occurrence of `c`, scanning like CPython `str.rfind`. -/
def rfindAux : List Char → Char → Option ℕ
  | [], _ => none
  | x :: xs, c =>
    match rfindAux xs c with
    | some i => some (i + 1)
    | none => if x = c then some 0 else none

/-- CPython `str.rfind` for a single character: last index, or `-1`. -/
def pyRFind (p : List Char) (c : Char) : ℤ :=
  match rfindAux p c with
  | some i => (i : ℤ)
  | none => -1

/-- CPython `str.rstrip` for a single character: drop trailing `c`s. -/
def rstripChar (c : Char) (s : List Char) : List Char :=
  (s.reverse.dropWhile (fun x => x == c)).reverse

/-- Whether every character of `s` is `c` (CPython `head == sep*len(head)`). -/
def allEqChar (c : Char) (s : List Char) : Bool := s.all (fun x => x == c)

/-- CPython `posixpath.split`: split at the last `'/'`; the head keeps no
trailing slashes unless it consists only of slashes. -/
def pySplit (p : List Char) : List Char × List Char :=
  let i : ℤ := pyRFind p '/' + 1
  let head := p.take i.toNat
  let tail := p.drop i.toNat
  if head ≠ [] ∧ allEqChar '/' head = false then (rstripChar '/' head, tail)
  else (head, tail)

/-- CPython `posixpath.splitext` (via `genericpath._splitext` with separator
`'/'` and extension separator `'.'`): split at the last dot of the last path
component, unless that component consists only of leading dots up to it. -/
def pySplitext (p : List Char) : List Char × List Char :=
  let sepIndex : ℤ := pyRFind p '/'
  let dotIndex : ℤ := pyRFind p '.'
  if sepIndex < dotIndex then
    let filenameStart : ℕ := (sepIndex + 1).toNat
    let seg := (p.drop filenameStart).take (dotIndex.toNat - filenameStart)
    if allEqChar '.' seg then (p, [])
    else (p.take dotIndex.toNat, p.drop dotIndex.toNat)
  else (p, [])

/-- CPython `posixpath.join` for two components. -/
def pyJoin2 (a b : List Char) : List Char :=
  if b.head? = some '/' then b
  else if a = [] ∨ a.getLast? = some '/' then a ++ b
  else a ++ '/' :: b

/-- `os.path.join('icon', 'png')`: the fixed icon directory. -/
def iconPngDir : List Char := pyJoin2 ("icon".toList) ("png".toList)

/-- `os.path.join('icon', 'png', icon_name)` (src/add_icon.py line 141). -/
def iconRelPath (iconName : List Char) : List Char :=
  pyJoin2 iconPngDir iconName

/-- `_generate_output_path` (src/add_icon.py lines 93-108):
`<dir of base>/<base stem>_with_icon_<icon stem><base extension>`. -/
def generateOutputPath (baseImagePath iconName : List Char) : List Char :=
  let dirName := (pySplit baseImagePath).1
  let fileName := (pySplit baseImagePath).2
  let name := (pySplitext fileName).1
  let ext := (pySplitext fileName).2
  let iconNamePart := (pySplitext iconName).1
  pyJoin2 dirName (name ++ ("_with_icon_".toList) ++ iconNamePart ++ ext)

/-- Python truthiness of the `output_path` argument (`None` or a string):
`if not output_path:` is taken for `None` and for the empty string. -/
def pyTruthy : Option (List Char) → Bool
  | none => false
  | some s => !s.isEmpty

/-- The status messages relevant to the claims (stdout is otherwise
informational). -/
inductive Msg where
  /-- the `except` clauses of `_add_icon_to_single_image` report the error. -/
  | errorCaught (e : PyErr)
  /-- `Error: Icon directory not found at '...'` (line 176). -/
  | iconDirNotFound
  /-- `No icons found in '...'` (line 181). -/
  | noIconsFound
  deriving DecidableEq

/-- Observable outcome of one `_add_icon_to_single_image` call: the returned
value (`None` on failure), the files written, the status reported. -/
structure SingleResult where
  ret : Option (List Char)
  writes : List SaveEvent
  msgs : List Msg

/-- The body of `_add_icon_to_single_image`'s `try` block (src/add_icon.py
lines 142-153): open both images, resize the icon, compute the position,
derive the output path when none (or an empty string) was supplied,
composite and save, return the output path. Any step's exception
short-circuits. -/
def runSingleE (w : World) (baseImagePath iconName : List Char)
    (outputPath : Option (List Char)) : Except PyErr (List Char × SaveEvent) :=
  match w.openImage baseImagePath with
  | .error e => .error e
  | .ok baseImage =>
    match w.openImage (iconRelPath iconName) with
    | .error e => .error e
    | .ok iconImage =>
      match resizeIcon w iconImage (baseImage.size.h : ℤ) with
      | .error e => .error e
      | .ok resizedIcon =>
        let position := calculatePosition baseImage.size resizedIcon.size
        let outPath := if pyTruthy outputPath then outputPath.getD []
                       else generateOutputPath baseImagePath iconName
        match compositeAndSave w baseImage resizedIcon position outPath with
        | .error e => .error e
        | .ok ev => .ok (outPath, ev)

/-- `_add_icon_to_single_image` (src/add_icon.py lines 127-160): the `try`
body with every exception caught at this boundary, reported, and turned into
a `None` return with no file written. -/
def addIconToSingleImage (w : World) (baseImagePath iconName : List Char)
    (outputPath : Option (List Char)) : SingleResult :=
  match runSingleE w baseImagePath iconName outputPath with
  | .ok pe => ⟨some pe.1, pe.2 :: [], []⟩
  | .error e => ⟨none, [], Msg.errorCaught e :: []⟩

/-- Observable outcome of `main`: files written and status reported. -/
structure MainResult where
  writes : List SaveEvent
  msgs : List Msg

/-- Python `str.lower` (ASCII as used here). -/
def pyLower (s : List Char) : List Char := s.map Char.toLower

/-- `main` (src/add_icon.py lines 162-190): the `'all'` token (compared
case-insensitively) enumerates `icon/png`, filters `*.png`, and runs the
single-image pipeline per icon with `None` as output path; otherwise the
single-image pipeline runs once with the caller's output path. -/
def mainModel (w : World) (baseImagePath iconName : List Char)
    (outputPath : Option (List Char)) : MainResult :=
  if pyLower iconName = ("all".toList) then
    if w.isDir iconPngDir = false then ⟨[], Msg.iconDirNotFound :: []⟩
    else
      let icons := (w.listDir iconPngDir).filter
        (fun f => (".png".toList).isSuffixOf f)
      if icons = [] then ⟨[], Msg.noIconsFound :: []⟩
      else
        let results := icons.map
          (fun ic => addIconToSingleImage w baseImagePath ic none)
        ⟨results.flatMap (fun r => r.writes),
         results.flatMap (fun r => r.msgs)⟩
  else
    let r := addIconToSingleImage w baseImagePath iconName outputPath
    ⟨r.writes, r.msgs⟩

/-- A fixed opaque-free pixel for concrete test worlds. -/
def testPixel : Pixel := ⟨0, 0, 0, 255⟩

/-- A constant image of a given size, for concrete test worlds. -/
def constImage (s : Size) : PImage := ⟨s, fun _ _ => testPixel⟩

/-- A minimal concrete environment (nothing exists on disk). -/
def wStub : World where
  openImage := fun _ => .error .fileNotFoundError
  isDir := fun _ => false
  listDir := fun _ => []
  saveOk := fun _ => true
  lanczosPx := fun _ _ _ _ => testPixel
  pastePx := fun s _ _ => s
  overPx := fun s _ => s

/-- A concrete environment for the batch scenario: the base image and the
icon `y.png` decode fine, `x.png` is corrupt, the icon directory holds
`x.png` and `y.png`. -/
def wBatch : World where
  openImage := fun p =>
    if p = ("base/photo.jpg".toList) then .ok (constImage ⟨400, 400⟩)
    else if p = iconRelPath ("y.png".toList) then .ok (constImage ⟨40, 40⟩)
    else .error .decodeError
  isDir := fun d => d = iconPngDir
  listDir := fun _ => ("x.png".toList) :: ("y.png".toList) :: []
  saveOk := fun _ => true
  lanczosPx := fun _ _ _ _ => testPixel
  pastePx := fun s _ _ => s
  overPx := fun s _ => s

/-- A concrete environment whose icon directory exists but holds no png. -/
def wEmptyDir : World where
  openImage := fun _ => .error .fileNotFoundError
  isDir := fun d => d = iconPngDir
  listDir := fun _ => ("readme.txt".toList) :: []
  saveOk := fun _ => true
  lanczosPx := fun _ _ _ _ => testPixel
  pastePx := fun s _ _ => s
  overPx := fun s _ => s

theorem pyInt_of_nonneg {q : ℚ} (hq : 0 ≤ q) : pyInt q = ⌊q⌋ := by
  unfold pyInt
  exact if_pos hq

theorem pyInt_natCast_div (n d : ℕ) : pyInt ((n : ℚ) / (d : ℚ)) = (n / d : ℕ) := by
  have hq : (0 : ℚ) ≤ (n : ℚ) / (d : ℚ) := by positivity
  rw [pyInt_of_nonneg hq, Rat.floor_natCast_div_natCast, Int.natCast_div]

theorem pyInt_nonpos_of_neg {q : ℚ} (hq : q < 0) : pyInt q ≤ 0 := by
  unfold pyInt
  rw [if_neg (not_le.mpr hq)]
  simp only [neg_nonpos]
  exact Int.le_floor.mpr (by push_cast; linarith)

theorem pyInt_eq_of_le_lt (q : ℚ) (z : ℤ) (h0 : 0 ≤ z) (h1 : (z : ℚ) ≤ q)
    (h2 : q < z + 1) : pyInt q = z := by
  have hq : 0 ≤ q := le_trans (by exact_mod_cast h0) h1
  rw [pyInt_of_nonneg hq]
  exact Int.floor_eq_iff.mpr ⟨h1, h2⟩

theorem pyInt_eq_of_neg (q : ℚ) (z : ℤ) (hq : q < 0) (h1 : (z : ℚ) - 1 < q)
    (h2 : q ≤ (z : ℚ)) : pyInt q = z := by
  unfold pyInt
  rw [if_neg (not_le.mpr hq)]
  have h : ⌊-q⌋ = -z := by
    apply Int.floor_eq_iff.mpr
    constructor
    · push_cast
      linarith
    · push_cast
      linarith
  rw [h]
  ring

theorem resizeSize_eq_ok (iw ih : ℕ) (bh : ℤ) (hih : ¬ ih = 0) (nw nh : ℤ)
    (hw : pyInt ((bh : ℚ) / ( IMAGE_HEIGHT_TO_ICON_HEIGHT_RATIO : ℕ) * ((iw : ℚ) / (ih : ℚ))) = nw)
    (hh2 : pyInt ((bh : ℚ) / ( IMAGE_HEIGHT_TO_ICON_HEIGHT_RATIO : ℕ)) = nh)
    (h1 : 1 ≤ nw) (h2 : 1 ≤ nh) :
    resizeSize ⟨iw, ih⟩ bh = .ok ⟨nw.toNat, nh.toNat⟩ := by
  simp only [resizeSize, hih, if_false, hw, hh2]
  rw [if_neg (by omega)]

theorem resizeSize_eq_valueError (iw ih : ℕ) (bh : ℤ) (hih : ¬ ih = 0) (nw nh : ℤ)
    (hw : pyInt ((bh : ℚ) / ( IMAGE_HEIGHT_TO_ICON_HEIGHT_RATIO : ℕ) * ((iw : ℚ) / (ih : ℚ))) = nw)
    (hh2 : pyInt ((bh : ℚ) / ( IMAGE_HEIGHT_TO_ICON_HEIGHT_RATIO : ℕ)) = nh)
    (hlt : nw < 1 ∨ nh < 1) :
    resizeSize ⟨iw, ih⟩ bh = .error .valueError := by
  simp only [resizeSize, hih, if_false, hw, hh2]
  rw [if_pos hlt]

theorem pyInt_mul_div_eq (a b c d : ℕ) :
    pyInt ((a : ℚ) / (b : ℚ) * ((c : ℚ) / (d : ℚ))) = ((a * c / (b * d) : ℕ) : ℤ) := by
  rw [div_mul_div_comm,
    show ((a : ℚ) * (c : ℚ)) = ((a * c : ℕ) : ℚ) by push_cast; ring,
    show ((b : ℚ) * (d : ℚ)) = ((b * d : ℕ) : ℚ) by push_cast; ring]
  exact pyInt_natCast_div _ _

/-- For a non-negative base height, the whole float computation of
`_resize_icon` collapses to integer (floor) divisions. -/
theorem resizeSize_natCast (iw ih bh : ℕ) (hih : ¬ ih = 0) :
    resizeSize ⟨iw, ih⟩ (bh : ℤ) =
      if bh * iw / (40 * ih) < 1 ∨ bh / 40 < 1 then .error .valueError
      else .ok ⟨bh * iw / (40 * ih), bh / 40⟩ := by
  have hw : pyInt (((bh : ℕ) : ℚ) / (( IMAGE_HEIGHT_TO_ICON_HEIGHT_RATIO : ℕ) : ℚ) * ((iw : ℚ) / (ih : ℚ)))
      = ((bh * iw / (40 * ih) : ℕ) : ℤ) := by
    rw [show ((( IMAGE_HEIGHT_TO_ICON_HEIGHT_RATIO : ℕ) : ℚ)) = ((40 : ℕ) : ℚ) by
      norm_num [ IMAGE_HEIGHT_TO_ICON_HEIGHT_RATIO]]
    exact pyInt_mul_div_eq _ _ _ _
  have hh2 : pyInt (((bh : ℕ) : ℚ) / (( IMAGE_HEIGHT_TO_ICON_HEIGHT_RATIO : ℕ) : ℚ))
      = ((bh / 40 : ℕ) : ℤ) := by
    rw [show ((( IMAGE_HEIGHT_TO_ICON_HEIGHT_RATIO : ℕ) : ℚ)) = ((40 : ℕ) : ℚ) by
      norm_num [ IMAGE_HEIGHT_TO_ICON_HEIGHT_RATIO]]
    exact pyInt_natCast_div _ _
  have hw2 : pyInt (((bh : ℤ) : ℚ) / (( IMAGE_HEIGHT_TO_ICON_HEIGHT_RATIO : ℕ) : ℚ) * ((iw : ℚ) / (ih : ℚ)))
      = ((bh * iw / (40 * ih) : ℕ) : ℤ) := by
    rw [show (((bh : ℕ) : ℤ) : ℚ) = ((bh : ℕ) : ℚ) by push_cast; ring]
    exact hw
  have hh3 : pyInt (((bh : ℤ) : ℚ) / (( IMAGE_HEIGHT_TO_ICON_HEIGHT_RATIO : ℕ) : ℚ))
      = ((bh / 40 : ℕ) : ℤ) := by
    rw [show (((bh : ℕ) : ℤ) : ℚ) = ((bh : ℕ) : ℚ) by push_cast; ring]
    exact hh2
  by_cases hc : bh * iw / (40 * ih) < 1 ∨ bh / 40 < 1
  · rw [if_pos hc]
    exact resizeSize_eq_valueError iw ih bh hih _ _ hw2 hh3 (by omega)
  · rw [if_neg hc]
    have h := resizeSize_eq_ok iw ih bh hih _ _ hw2 hh3 (by omega) (by omega)
    simpa using h

theorem resizeSizeSpecOrder_eq_ok (iw ih : ℕ) (bh : ℤ) (hih : ¬ ih = 0) (nh nw : ℤ)
    (hh2 : pyInt ((bh : ℚ) / ( IMAGE_HEIGHT_TO_ICON_HEIGHT_RATIO : ℕ)) = nh)
    (hw : pyInt ((nh : ℚ) * ((iw : ℚ) / (ih : ℚ))) = nw)
    (h1 : 1 ≤ nw) (h2 : 1 ≤ nh) :
    resizeSizeSpecOrder ⟨iw, ih⟩ bh = .ok ⟨nw.toNat, nh.toNat⟩ := by
  simp only [resizeSizeSpecOrder, hih, if_false, hh2, hw]
  rw [if_neg (by omega)]

theorem resizeSize_two_one_sixty : resizeSize ⟨2, 1⟩ 60 = Except.ok ⟨3, 1⟩ := by
  have h := resizeSize_natCast 2 1 60 (by norm_num)
  norm_num at h
  exact h

theorem specOrder_two_one_sixty :
    resizeSizeSpecOrder ⟨2, 1⟩ 60 = Except.ok ⟨2, 1⟩ := by
  have h := resizeSizeSpecOrder_eq_ok 2 1 60 (by norm_num) 1 2
    (pyInt_eq_of_le_lt _ 1 (by norm_num)
      (by norm_num [ IMAGE_HEIGHT_TO_ICON_HEIGHT_RATIO])
      (by norm_num [ IMAGE_HEIGHT_TO_ICON_HEIGHT_RATIO]))
    (pyInt_eq_of_le_lt _ 2 (by norm_num) (by norm_num) (by norm_num))
    (by norm_num) (by norm_num)
  simpa using h

/-- Claim C1, as stated, is false on the code: for a 2-by-1 icon and base
height 60 the source computes width `int((60/40) * 2) = 3` from the
untruncated quotient `1.5`, while scaling the truncated height `int(60/40)
= 1` (the spec's stated order, `resizeSizeSpecOrder`) would give width 2. -/
theorem claim1_counterexample :
    resizeSize ⟨2, 1⟩ 60 = Except.ok ⟨3, 1⟩ ∧
    resizeSizeSpecOrder ⟨2, 1⟩ 60 = Except.ok ⟨2, 1⟩ ∧
    resizeSize ⟨2, 1⟩ 60 ≠ resizeSizeSpecOrder ⟨2, 1⟩ 60 := by
  refine ⟨resizeSize_two_one_sixty, specOrder_two_one_sixty, ?_⟩
  rw [resizeSize_two_one_sixty, specOrder_two_one_sixty]
  simp

/-- Claim C1 amended: for every icon with positive width and height and every
positive base height, whenever the resizer succeeds the resized height is
`floor(base_height / 40)` and the resized width is the truncation of the
UNtruncated quotient `base_height / 40` times the aspect ratio (not of the
truncated height times the aspect ratio). -/
theorem claim1_amended (iw ih : ℕ) (bh : ℤ) (hiw : 0 < iw) (hih : 0 < ih)
    (hbh : 0 < bh) (s : Size) (hok : resizeSize ⟨iw, ih⟩ bh = Except.ok s) :
    s.h = bh.toNat / 40 ∧
    (s.w : ℤ) = pyInt ((bh : ℚ) / 40 * ((iw : ℚ) / (ih : ℚ))) := by
  have hcast : bh = ((bh.toNat : ℕ) : ℤ) := (Int.toNat_of_nonneg hbh.le).symm
  rw [hcast, resizeSize_natCast iw ih bh.toNat (by omega)] at hok
  split at hok
  · exact absurd hok (by simp)
  · have hs : s = ⟨bh.toNat * iw / (40 * ih), bh.toNat / 40⟩ :=
      (Except.ok.inj hok).symm
    subst hs
    refine ⟨rfl, ?_⟩
    have hp : pyInt ((bh : ℚ) / 40 * ((iw : ℚ) / (ih : ℚ)))
        = ((bh.toNat * iw / (40 * ih) : ℕ) : ℤ) := by
      rw [hcast]
      rw [show (((bh.toNat : ℕ) : ℤ) : ℚ) = ((bh.toNat : ℕ) : ℚ) by push_cast; ring,
        show ((40 : ℚ)) = ((40 : ℕ) : ℚ) by norm_num]
      exact pyInt_mul_div_eq _ _ _ _
    rw [hp]

/-- Witness for the amended claim C1 at icon 2-by-1 and base height 60. -/
theorem claim1_amended_witness :
    0 < 2 ∧ 0 < 1 ∧ 0 < (60 : ℤ) ∧
    ((⟨3, 1⟩ : Size).h = (60 : ℤ).toNat / 40 ∧
     (((⟨3, 1⟩ : Size).w : ℕ) : ℤ) =
       pyInt (((60 : ℤ) : ℚ) / 40 * (((2 : ℕ) : ℚ) / ((1 : ℕ) : ℚ)))) :=
  ⟨by norm_num, by norm_num, by norm_num,
   claim1_amended 2 1 60 (by norm_num) (by norm_num) (by norm_num) ⟨3, 1⟩
     resizeSize_two_one_sixty⟩

/-- Claim C2: a zero icon height raises `ZeroDivisionError` computing the
aspect ratio; a negative base height makes the truncated target height
non-positive, which Pillow's resize rejects with `ValueError`. Either way
the resizer fails instead of producing a degenerate image. -/
theorem claim2_degenerate_resize_errors (iw ih : ℕ) (bh : ℤ)
    (hdeg : ih = 0 ∨ bh < 0) :
    resizeSize ⟨iw, ih⟩ bh = Except.error PyErr.zeroDivisionError ∨
    resizeSize ⟨iw, ih⟩ bh = Except.error PyErr.valueError := by
  by_cases hih : ih = 0
  · left
    simp [resizeSize, hih]
  · right
    rcases hdeg with h | h
    · exact absurd h hih
    · have hqneg : ((bh : ℤ) : ℚ) / (( IMAGE_HEIGHT_TO_ICON_HEIGHT_RATIO : ℕ) : ℚ) < 0 := by
        apply div_neg_of_neg_of_pos
        · exact_mod_cast h
        · norm_num [ IMAGE_HEIGHT_TO_ICON_HEIGHT_RATIO]
      have hnh := pyInt_nonpos_of_neg hqneg
      exact resizeSize_eq_valueError iw ih bh hih _ _ rfl rfl (Or.inr (by omega))

/-- Witness for claim C2 at icon height 0 (and at a negative base height). -/
theorem claim2_witness :
    (((0 : ℕ) = 0 ∨ (100 : ℤ) < 0) ∧
      (resizeSize ⟨3, 0⟩ 100 = Except.error PyErr.zeroDivisionError ∨
       resizeSize ⟨3, 0⟩ 100 = Except.error PyErr.valueError)) ∧
    (((1 : ℕ) = 0 ∨ (-10 : ℤ) < 0) ∧
      (resizeSize ⟨2, 1⟩ (-10) = Except.error PyErr.zeroDivisionError ∨
       resizeSize ⟨2, 1⟩ (-10) = Except.error PyErr.valueError)) :=
  ⟨⟨Or.inl rfl, claim2_degenerate_resize_errors 3 0 100 (Or.inl rfl)⟩,
   ⟨Or.inr (by norm_num), claim2_degenerate_resize_errors 2 1 (-10) (Or.inr (by norm_num))⟩⟩

/-- Claim C3: the composited image always exists (the icon layer is created
with the base image's size, so `alpha_composite`'s size check passes) and has
exactly the base image's dimensions. -/
theorem claim3_output_size (w : World) (baseImage iconImage : PImage)
    (position : ℤ × ℤ) :
    ∃ finalImage,
      compositedImage w baseImage iconImage position = Except.ok finalImage ∧
      finalImage.size = baseImage.size := by
  unfold compositedImage alphaComposite pasteMask imageNew
  rw [if_pos rfl]
  exact ⟨_, rfl, rfl⟩

theorem rfindAux_eq_none {c : Char} : ∀ {l : List Char}, c ∉ l → rfindAux l c = none := by
  intro l
  induction l with
  | nil => intro _; rfl
  | cons x xs ih =>
    intro hmem
    have hx : ¬ x = c := fun hc => hmem (by subst hc; exact List.mem_cons_self x xs)
    have hxs : c ∉ xs := fun hc => hmem (List.mem_cons_of_mem x hc)
    simp [rfindAux, ih hxs, hx]

theorem rfindAux_append_last (xs ys : List Char) (c : Char) (hys : c ∉ ys) :
    rfindAux (xs ++ c :: ys) c = some xs.length := by
  induction xs with
  | nil => simp [rfindAux, rfindAux_eq_none hys]
  | cons x xs ih => simp [rfindAux, ih]

theorem pyRFind_append_last (xs ys : List Char) (c : Char) (hys : c ∉ ys) :
    pyRFind (xs ++ c :: ys) c = (xs.length : ℤ) := by
  unfold pyRFind
  rw [rfindAux_append_last xs ys c hys]

theorem pyRFind_eq_neg_one {c : Char} {l : List Char} (h : c ∉ l) :
    pyRFind l c = -1 := by
  unfold pyRFind
  rw [rfindAux_eq_none h]

theorem rstripChar_append_singleton (c : Char) (l : List Char)
    (hl : l.getLast? ≠ some c) : rstripChar c (l ++ c :: []) = l := by
  unfold rstripChar
  rw [List.reverse_append]
  have hc1 : (c :: []).reverse ++ l.reverse = c :: l.reverse := by simp
  rw [hc1, List.dropWhile_cons, if_pos (by simp)]
  cases hrev : l.reverse with
  | nil =>
    have hnil : l = [] := by
      have h2 := congrArg List.reverse hrev
      simpa using h2
    simp [hnil]
  | cons hd tl =>
    have hh : ¬ (hd == c) = true := by
      have hlast : l.getLast? = some hd := by
        rw [List.getLast?_eq_head?_reverse, hrev]
        rfl
      intro hc
      exact hl (by rw [hlast]; exact congrArg some (by simpa using hc))
    rw [List.dropWhile_cons, if_neg hh, ← hrev, List.reverse_reverse]

theorem pySplit_dir (dir rest : List Char) (hd1 : dir ≠ [])
    (hd2 : dir.getLast? ≠ some '/') (hr : '/' ∉ rest) :
    pySplit (dir ++ '/' :: rest) = (dir, rest) := by
  have hiN : ((dir.length : ℤ) + 1).toNat = dir.length + 1 := by omega
  have hsplit : dir ++ '/' :: rest = (dir ++ '/' :: []) ++ rest := by simp
  have htake : (dir ++ '/' :: rest).take (dir.length + 1) = dir ++ '/' :: [] := by
    rw [hsplit, List.take_left' (by simp)]
  have hdrop : (dir ++ '/' :: rest).drop (dir.length + 1) = rest := by
    rw [hsplit, List.drop_left' (by simp)]
  simp only [pySplit, pyRFind_append_last dir rest '/' hr, hiN, htake, hdrop]
  have hlastmem : dir.getLast hd1 ∈ dir := List.getLast_mem hd1
  have hlastne : ¬ (dir.getLast hd1 == '/') = true := by
    intro hc
    apply hd2
    rw [List.getLast?_eq_getLast dir hd1]
    exact congrArg some (by simpa using hc)
  have hall : allEqChar '/' (dir ++ '/' :: []) = false := by
    apply List.all_eq_false.mpr
    exact ⟨dir.getLast hd1, by simp [hlastmem], hlastne⟩
  rw [if_pos ⟨by simp, hall⟩]
  rw [rstripChar_append_singleton '/' dir hd2]

theorem pySplitext_stem_ext (stem ext : List Char)
    (hs1 : '/' ∉ stem) (hsdot : allEqChar '.' stem = false)
    (he1 : '/' ∉ ext) (he2 : '.' ∉ ext) :
    pySplitext (stem ++ '.' :: ext) = (stem, '.' :: ext) := by
  unfold pySplitext
  have hsep : pyRFind (stem ++ '.' :: ext) '/' = -1 := by
    apply pyRFind_eq_neg_one
    simp only [List.mem_append, List.mem_cons]
    push_neg
    exact ⟨hs1, by decide, he1⟩
  have hdot : pyRFind (stem ++ '.' :: ext) '.' = (stem.length : ℤ) :=
    pyRFind_append_last stem ext '.' he2
  rw [hsep, hdot]
  rw [if_pos (by omega)]
  have h0 : ((-1 : ℤ) + 1).toNat = 0 := by norm_num
  have htN : ((stem.length : ℤ)).toNat = stem.length := by omega
  rw [h0, htN]
  simp only [List.drop_zero, Nat.sub_zero]
  have hcond : allEqChar '.' (List.take stem.length (stem ++ '.' :: ext)) = false := by
    rw [List.take_left]
    exact hsdot
  rw [if_neg (by simp [List.take_left, hsdot]), List.take_left, List.drop_left]

theorem pyJoin2_plain (a b : List Char) (ha1 : a ≠ [])
    (ha2 : a.getLast? ≠ some '/') (hb : b.head? ≠ some '/') :
    pyJoin2 a b = a ++ '/' :: b := by
  unfold pyJoin2
  rw [if_neg hb, if_neg (by push_neg; exact ⟨ha1, ha2⟩)]

theorem generateOutputPath_structured (dir stem ext icon : List Char)
    (hd1 : dir ≠ []) (hd2 : dir.getLast? ≠ some '/')
    (hs1 : '/' ∉ stem) (hsdot : allEqChar '.' stem = false)
    (he1 : '/' ∉ ext) (he2 : '.' ∉ ext) :
    generateOutputPath (dir ++ '/' :: (stem ++ '.' :: ext)) icon =
      dir ++ '/' :: (stem ++ ("_with_icon_".toList) ++ (pySplitext icon).1 ++ '.' :: ext) := by
  have hrest : '/' ∉ stem ++ '.' :: ext := by
    simp only [List.mem_append, List.mem_cons]
    push_neg
    exact ⟨hs1, by decide, he1⟩
  have hhead : (stem ++ ("_with_icon_".toList) ++ (pySplitext icon).1 ++ '.' :: ext).head? ≠ some '/' := by
    cases stem with
    | nil => exact absurd hsdot (by simp [allEqChar])
    | cons s ss =>
      have hs : ¬ s = '/' := fun hc => hs1 (by rw [hc]; exact List.mem_cons_self _ _)
      simp [hs]
  simp only [generateOutputPath, pySplit_dir dir (stem ++ '.' :: ext) hd1 hd2 hrest,
    pySplitext_stem_ext stem ext hs1 hsdot he1 he2]
  rw [pyJoin2_plain dir _ hd1 hd2 hhead]

/-- Claim C4: the paste position is exactly
`(base_w - icon_w - floor(base_h/100), base_h - icon_h - floor(base_h/100))`
with no clamping (the subtraction is over ℤ and may go negative), and the
compositor accepts whatever position comes out without error. -/
theorem claim4_position_formula (bw bh iw ih : ℕ) :
    calculatePosition ⟨bw, bh⟩ ⟨iw, ih⟩ =
      ((bw : ℤ) - (iw : ℤ) - ((bh / 100 : ℕ) : ℤ),
       (bh : ℤ) - (ih : ℤ) - ((bh / 100 : ℕ) : ℤ)) ∧
    ∀ (w : World) (baseImage iconImage : PImage),
      (compositedImage w baseImage iconImage
        (calculatePosition baseImage.size iconImage.size)).isOk = true := by
  constructor
  · unfold calculatePosition
    have hpad : pyInt (((bh : ℕ) : ℚ) / (( IMAGE_HEIGHT_TO_PADDING_RATIO : ℕ) : ℚ))
        = ((bh / 100 : ℕ) : ℤ) := by
      rw [show ((( IMAGE_HEIGHT_TO_PADDING_RATIO : ℕ) : ℚ)) = ((100 : ℕ) : ℚ) by
        norm_num [ IMAGE_HEIGHT_TO_PADDING_RATIO]]
      exact pyInt_natCast_div _ _
    simp [hpad]
  · intro w baseImage iconImage
    unfold compositedImage alphaComposite pasteMask imageNew
    rw [if_pos rfl]
    rfl

/-- Claim C5: with no explicit output path the derived output is
`<directory>/<base stem>_with_icon_<icon stem><base extension>`: directory
and extension come from the base image's path, never the icon's; in
particular `a/b.jpg` with icon `red.png` derives `a/b_with_icon_red.jpg`. -/
theorem claim5_derived_output_path (dir stem ext icon : List Char)
    (hd1 : dir ≠ []) (hd2 : dir.getLast? ≠ some '/')
    (hs1 : '/' ∉ stem) (hsdot : allEqChar '.' stem = false)
    (he1 : '/' ∉ ext) (he2 : '.' ∉ ext) :
    generateOutputPath (dir ++ '/' :: (stem ++ '.' :: ext)) icon =
      dir ++ '/' :: (stem ++ ("_with_icon_".toList) ++ (pySplitext icon).1 ++ '.' :: ext) ∧
    generateOutputPath ("a/b.jpg".toList) ("red.png".toList) =
      ("a/b_with_icon_red.jpg".toList) :=
  ⟨generateOutputPath_structured dir stem ext icon hd1 hd2 hs1 hsdot he1 he2,
   by decide⟩

/-- Witness for claim C5 at base path `a/b.jpg` and icon `red.png`. -/
theorem claim5_witness :
    (("a".toList) ≠ [] ∧ ("a".toList).getLast? ≠ some '/' ∧ '/' ∉ ("b".toList) ∧
     allEqChar '.' ("b".toList) = false ∧ '/' ∉ ("jpg".toList) ∧ '.' ∉ ("jpg".toList)) ∧
    (generateOutputPath (("a".toList) ++ '/' :: (("b".toList) ++ '.' :: ("jpg".toList)))
        ("red.png".toList) =
      ("a".toList) ++ '/' :: (("b".toList) ++ ("_with_icon_".toList) ++
        (pySplitext ("red.png".toList)).1 ++ '.' :: ("jpg".toList)) ∧
     generateOutputPath ("a/b.jpg".toList) ("red.png".toList) =
      ("a/b_with_icon_red.jpg".toList)) :=
  ⟨⟨by decide, by decide, by decide, by decide, by decide, by decide⟩,
   claim5_derived_output_path ("a".toList) ("b".toList) ("jpg".toList) ("red.png".toList)
     (by decide) (by decide) (by decide) (by decide) (by decide) (by decide)⟩

theorem compositedImage_ok (w : World) (b i : PImage) (pos : ℤ × ℤ) :
    ∃ fi, compositedImage w b i pos = Except.ok fi ∧ fi.size = b.size := by
  unfold compositedImage alphaComposite pasteMask imageNew
  rw [if_pos rfl]
  exact ⟨_, rfl, rfl⟩

theorem compositeAndSave_ok_inv (w : World) (b i : PImage) (pos : ℤ × ℤ)
    (p : List Char) (ev : SaveEvent)
    (h : compositeAndSave w b i pos p = .ok ev) :
    ev.path = p ∧ ev.format = .PNG := by
  unfold compositeAndSave at h
  obtain ⟨fi, hfi, _⟩ := compositedImage_ok w b i pos
  simp only [hfi] at h
  by_cases hs : w.saveOk p = true
  · rw [if_pos hs] at h
    have he := Except.ok.inj h
    rw [← he]
    exact ⟨rfl, rfl⟩
  · rw [if_neg hs] at h
    exact absurd h (by simp)

theorem compositeAndSave_ok_of (w : World) (b i : PImage) (pos : ℤ × ℤ)
    (p : List Char) (hs : w.saveOk p = true) :
    ∃ fi, compositeAndSave w b i pos p = .ok ⟨p, fi, .PNG⟩ := by
  obtain ⟨fi, hfi, _⟩ := compositedImage_ok w b i pos
  refine ⟨fi, ?_⟩
  unfold compositeAndSave
  simp only [hfi]
  rw [if_pos hs]

theorem runSingleE_eq (w : World) (bp icn : List Char) (out : Option (List Char)) :
    runSingleE w bp icn out =
      match w.openImage bp with
      | .error e => .error e
      | .ok baseImage =>
        match w.openImage (iconRelPath icn) with
        | .error e => .error e
        | .ok iconImage =>
          match resizeIcon w iconImage (baseImage.size.h : ℤ) with
          | .error e => .error e
          | .ok resizedIcon =>
            match compositeAndSave w baseImage resizedIcon
                (calculatePosition baseImage.size resizedIcon.size)
                (if pyTruthy out then out.getD [] else generateOutputPath bp icn) with
            | .error e => .error e
            | .ok ev =>
              .ok (if pyTruthy out then out.getD [] else generateOutputPath bp icn, ev) :=
  rfl

theorem runSingleE_ok_inv (w : World) (bp icn : List Char) (out : Option (List Char))
    (p : List Char) (ev : SaveEvent)
    (h : runSingleE w bp icn out = .ok (p, ev)) :
    p = (if pyTruthy out then out.getD [] else generateOutputPath bp icn) ∧
    ev.path = p ∧ ev.format = .PNG := by
  rw [runSingleE_eq] at h
  cases h1 : w.openImage bp with
  | error e =>
    simp only [h1] at h
    exact absurd h (by simp)
  | ok baseImage =>
    simp only [h1] at h
    cases h2 : w.openImage (iconRelPath icn) with
    | error e =>
      simp only [h2] at h
      exact absurd h (by simp)
    | ok iconImage =>
      simp only [h2] at h
      cases h3 : resizeIcon w iconImage (baseImage.size.h : ℤ) with
      | error e =>
        simp only [h3] at h
        exact absurd h (by simp)
      | ok resizedIcon =>
        simp only [h3] at h
        cases h4 : compositeAndSave w baseImage resizedIcon
            (calculatePosition baseImage.size resizedIcon.size)
            (if pyTruthy out then out.getD [] else generateOutputPath bp icn) with
        | error e =>
          simp only [h4] at h
          exact absurd h (by simp)
        | ok ev2 =>
          simp only [h4] at h
          have hp := Except.ok.inj h
          have hpe : (if pyTruthy out then out.getD [] else generateOutputPath bp icn) = p :=
            congrArg Prod.fst hp
          have heve : ev2 = ev := congrArg Prod.snd hp
          obtain ⟨hpath, hfmt⟩ := compositeAndSave_ok_inv w baseImage resizedIcon _ _ ev2 h4
          rw [← heve, hpath]
          exact ⟨hpe.symm, hpe, hfmt⟩

theorem runSingleE_ok_of (w : World) (bp icn : List Char) (out : Option (List Char))
    (baseImage iconImage resizedIcon : PImage)
    (h1 : w.openImage bp = .ok baseImage)
    (h2 : w.openImage (iconRelPath icn) = .ok iconImage)
    (h3 : resizeIcon w iconImage (baseImage.size.h : ℤ) = .ok resizedIcon)
    (hs : w.saveOk (if pyTruthy out then out.getD [] else generateOutputPath bp icn) = true) :
    ∃ ev, runSingleE w bp icn out =
      .ok (if pyTruthy out then out.getD [] else generateOutputPath bp icn, ev) := by
  rw [runSingleE_eq]
  obtain ⟨fi, hcs⟩ := compositeAndSave_ok_of w baseImage resizedIcon
    (calculatePosition baseImage.size resizedIcon.size)
    (if pyTruthy out then out.getD [] else generateOutputPath bp icn) hs
  simp only [h1, h2, h3, hcs]
  exact ⟨_, rfl⟩

theorem addIcon_of_error (w : World) (bp icn : List Char) (out : Option (List Char))
    (e : PyErr) (h : runSingleE w bp icn out = .error e) :
    addIconToSingleImage w bp icn out = ⟨none, [], Msg.errorCaught e :: []⟩ := by
  unfold addIconToSingleImage
  rw [h]

theorem addIcon_of_ok (w : World) (bp icn : List Char) (out : Option (List Char))
    (p : List Char) (ev : SaveEvent) (h : runSingleE w bp icn out = .ok (p, ev)) :
    addIconToSingleImage w bp icn out = ⟨some p, ev :: [], []⟩ := by
  unfold addIconToSingleImage
  rw [h]

theorem mainModel_all (w : World) (bp icn : List Char) (out : Option (List Char))
    (hall : pyLower icn = ("all".toList)) (hdir : w.isDir iconPngDir = true) :
    mainModel w bp icn out =
      (if (w.listDir iconPngDir).filter (fun f => (".png".toList).isSuffixOf f) = [] then
        ⟨[], Msg.noIconsFound :: []⟩
      else
        ⟨((w.listDir iconPngDir).filter (fun f => (".png".toList).isSuffixOf f)).flatMap
            (fun ic => (addIconToSingleImage w bp ic none).writes),
         ((w.listDir iconPngDir).filter (fun f => (".png".toList).isSuffixOf f)).flatMap
            (fun ic => (addIconToSingleImage w bp ic none).msgs)⟩) := by
  simp only [mainModel]
  rw [if_pos hall, if_neg (by simp [hdir])]
  by_cases hics : (w.listDir iconPngDir).filter (fun f => (".png".toList).isSuffixOf f) = []
  · rw [if_pos hics, if_pos hics]
  · rw [if_neg hics, if_neg hics, List.flatMap_map, List.flatMap_map]

theorem mainModel_all_writes (w : World) (bp icn : List Char) (out : Option (List Char))
    (hall : pyLower icn = ("all".toList)) (hdir : w.isDir iconPngDir = true) :
    (mainModel w bp icn out).writes =
      ((w.listDir iconPngDir).filter (fun f => (".png".toList).isSuffixOf f)).flatMap
        (fun ic => (addIconToSingleImage w bp ic none).writes) := by
  rw [mainModel_all w bp icn out hall hdir]
  by_cases hics : (w.listDir iconPngDir).filter (fun f => (".png".toList).isSuffixOf f) = []
  · rw [if_pos hics, hics]
    rfl
  · rw [if_neg hics]

theorem mainModel_no_dir (w : World) (bp icn : List Char) (out : Option (List Char))
    (hall : pyLower icn = ("all".toList)) (hdir : w.isDir iconPngDir = false) :
    mainModel w bp icn out = ⟨[], Msg.iconDirNotFound :: []⟩ := by
  simp only [mainModel]
  rw [if_pos hall, if_pos hdir]

theorem mainModel_single (w : World) (bp icn : List Char) (out : Option (List Char))
    (hall : ¬ pyLower icn = ("all".toList)) :
    mainModel w bp icn out =
      ⟨(addIconToSingleImage w bp icn out).writes,
       (addIconToSingleImage w bp icn out).msgs⟩ := by
  simp only [mainModel]
  rw [if_neg hall]

theorem addIcon_writes_path (w : World) (bp ic : List Char) (ev : SaveEvent)
    (hev : ev ∈ (addIconToSingleImage w bp ic none).writes) :
    ev.path = generateOutputPath bp ic := by
  cases hrun : runSingleE w bp ic none with
  | error e =>
    rw [addIcon_of_error w bp ic none e hrun] at hev
    exact absurd hev (by simp)
  | ok pe =>
    cases pe with
    | mk p ev2 =>
      rw [addIcon_of_ok w bp ic none p ev2 hrun] at hev
      have heq : ev = ev2 := by simpa using hev
      obtain ⟨hp, hpath, _⟩ := runSingleE_ok_inv w bp ic none p ev2 hrun
      rw [heq, hpath, hp]
      rfl

theorem wBatch_y_single (out : Option (List Char)) (hout : pyTruthy out = false) :
    (addIconToSingleImage wBatch ("base/photo.jpg".toList) ("y.png".toList) out).ret
      = some ("base/photo_with_icon_y.jpg".toList) := by
  have hr : resizeSize ⟨40, 40⟩ ((400 : ℕ) : ℤ) = .ok ⟨10, 10⟩ := by
    rw [resizeSize_natCast 40 40 400 (by norm_num)]
    norm_num
  have h3 : resizeIcon wBatch (constImage ⟨40, 40⟩)
      (((constImage ⟨400, 400⟩).size.h : ℕ) : ℤ)
      = .ok ⟨⟨10, 10⟩, fun x y => wBatch.lanczosPx ⟨10, 10⟩ (constImage ⟨40, 40⟩) x y⟩ := by
    simp only [resizeIcon, constImage, hr]
  obtain ⟨ev, hev⟩ := runSingleE_ok_of wBatch ("base/photo.jpg".toList) ("y.png".toList) out
    (constImage ⟨400, 400⟩) (constImage ⟨40, 40⟩)
    ⟨⟨10, 10⟩, fun x y => wBatch.lanczosPx ⟨10, 10⟩ (constImage ⟨40, 40⟩) x y⟩
    rfl rfl h3 rfl
  have hgen : generateOutputPath ("base/photo.jpg".toList) ("y.png".toList)
      = ("base/photo_with_icon_y.jpg".toList) := by decide
  rw [hout] at hev
  simp only [Bool.false_eq_true, if_false, hgen] at hev
  rw [addIcon_of_ok _ _ _ _ _ _ hev]

/-- Claim C6: every error in the single-image pipeline is caught at its
boundary and becomes a `None` return with no file written and a reported
status; in `'all'` mode each icon is processed independently (the batch
writes are the concatenation of the per-icon writes), so an icon whose own
run succeeds gets its output written no matter what the other icons do. -/
theorem claim6_error_isolation :
    (∀ (w : World) (bp icn : List Char) (out : Option (List Char)) (e : PyErr),
      runSingleE w bp icn out = .error e →
      addIconToSingleImage w bp icn out = ⟨none, [], Msg.errorCaught e :: []⟩) ∧
    (∀ (w : World) (bp : List Char) (out : Option (List Char)),
      w.isDir iconPngDir = true →
      (mainModel w bp ("all".toList) out).writes =
        ((w.listDir iconPngDir).filter (fun f => (".png".toList).isSuffixOf f)).flatMap
          (fun ic => (addIconToSingleImage w bp ic none).writes)) ∧
    (∀ (w : World) (bp ic p : List Char) (out : Option (List Char)),
      w.isDir iconPngDir = true →
      ic ∈ (w.listDir iconPngDir).filter (fun f => (".png".toList).isSuffixOf f) →
      (addIconToSingleImage w bp ic none).ret = some p →
      p ∈ (mainModel w bp ("all".toList) out).writes.map (fun ev => ev.path)) := by
  refine ⟨addIcon_of_error,
    fun w bp out hdir => mainModel_all_writes w bp ("all".toList) out (by decide) hdir, ?_⟩
  intro w bp ic p out hdir hic hret
  cases hrun : runSingleE w bp ic none with
  | error e =>
    rw [addIcon_of_error w bp ic none e hrun] at hret
    exact absurd hret (by simp)
  | ok pe =>
    cases pe with
    | mk p' ev =>
      rw [addIcon_of_ok w bp ic none p' ev hrun] at hret
      have hp : p' = p := by simpa using hret
      obtain ⟨_, hpath, _⟩ := runSingleE_ok_inv w bp ic none p' ev hrun
      rw [mainModel_all_writes w bp ("all".toList) out (by decide) hdir]
      apply List.mem_map.mpr
      refine ⟨ev, ?_, by rw [hpath, hp]⟩
      apply List.mem_flatMap.mpr
      refine ⟨ic, hic, ?_⟩
      rw [addIcon_of_ok w bp ic none p' ev hrun]
      simp

/-- Witness for claim C6: in `wStub` the base image is missing, so the
single-image pipeline fails, is caught and reports; in `wBatch` the icon
directory holds a corrupt `x.png` and a good `y.png`, and `y.png`'s derived
output is still written by the batch run. -/
theorem claim6_witness :
    (runSingleE wStub ("b.jpg".toList) ("x.png".toList) none =
        .error PyErr.fileNotFoundError ∧
     addIconToSingleImage wStub ("b.jpg".toList) ("x.png".toList) none =
        ⟨none, [], Msg.errorCaught PyErr.fileNotFoundError :: []⟩) ∧
    (wBatch.isDir iconPngDir = true ∧
     ("y.png".toList) ∈ (wBatch.listDir iconPngDir).filter
        (fun f => (".png".toList).isSuffixOf f) ∧
     (addIconToSingleImage wBatch ("base/photo.jpg".toList) ("y.png".toList) none).ret
        = some ("base/photo_with_icon_y.jpg".toList) ∧
     ("base/photo_with_icon_y.jpg".toList) ∈
       (mainModel wBatch ("base/photo.jpg".toList) ("all".toList) none).writes.map
         (fun ev => ev.path)) :=
  ⟨⟨rfl, claim6_error_isolation.1 wStub ("b.jpg".toList) ("x.png".toList) none
      PyErr.fileNotFoundError rfl⟩,
   ⟨by decide, by decide, wBatch_y_single none rfl,
    claim6_error_isolation.2.2 wBatch ("base/photo.jpg".toList) ("y.png".toList)
      ("base/photo_with_icon_y.jpg".toList) none (by decide) (by decide)
      (wBatch_y_single none rfl)⟩⟩

/-- Claim C7: every file the program writes — in single mode or batch mode,
with or without an explicit output path — is saved with the fixed `"PNG"`
format, regardless of the output path's extension. -/
theorem claim7_always_png (w : World) (bp icn : List Char)
    (out : Option (List Char)) :
    (mainModel w bp icn out).writes.all
      (fun ev => ev.format == ImageFormat.PNG) = true := by
  have hsingle : ∀ (icn2 : List Char) (out2 : Option (List Char)),
      (addIconToSingleImage w bp icn2 out2).writes.all
        (fun ev => ev.format == ImageFormat.PNG) = true := by
    intro icn2 out2
    cases hrun : runSingleE w bp icn2 out2 with
    | error e =>
      rw [addIcon_of_error w bp icn2 out2 e hrun]
      rfl
    | ok pe =>
      cases pe with
      | mk p ev =>
        rw [addIcon_of_ok w bp icn2 out2 p ev hrun]
        obtain ⟨_, _, hfmt⟩ := runSingleE_ok_inv w bp icn2 out2 p ev hrun
        simp [hfmt]
  by_cases hall : pyLower icn = ("all".toList)
  · by_cases hdir : w.isDir iconPngDir = true
    · rw [mainModel_all_writes w bp icn out hall hdir, List.all_eq_true]
      intro ev hev
      obtain ⟨ic, _, hev2⟩ := List.mem_flatMap.mp hev
      have hall2 := hsingle ic none
      rw [List.all_eq_true] at hall2
      exact hall2 ev hev2
    · rw [mainModel_no_dir w bp icn out hall (by simpa using hdir)]
      rfl
  · rw [mainModel_single w bp icn out hall]
    exact hsingle icn out

/-- Claim C8: in `'all'` mode a missing icon directory, or a directory with
no `.png` file, is reported as a status message, produces zero writes, and
the function returns normally. -/
theorem claim8_all_mode_failures (w : World) (bp : List Char)
    (out : Option (List Char)) :
    (w.isDir iconPngDir = false →
      mainModel w bp ("all".toList) out = ⟨[], Msg.iconDirNotFound :: []⟩) ∧
    (w.isDir iconPngDir = true →
      (w.listDir iconPngDir).filter (fun f => (".png".toList).isSuffixOf f) = [] →
      mainModel w bp ("all".toList) out = ⟨[], Msg.noIconsFound :: []⟩) := by
  constructor
  · intro hdir
    exact mainModel_no_dir w bp ("all".toList) out (by decide) hdir
  · intro hdir hics
    rw [mainModel_all w bp ("all".toList) out (by decide) hdir, if_pos hics]

/-- Witness for claim C8: `wStub` has no icon directory; `wEmptyDir` has the
directory but no `.png` file in it. -/
theorem claim8_witness :
    (wStub.isDir iconPngDir = false ∧
     mainModel wStub ("b.jpg".toList) ("all".toList) none =
        ⟨[], Msg.iconDirNotFound :: []⟩) ∧
    (wEmptyDir.isDir iconPngDir = true ∧
     (wEmptyDir.listDir iconPngDir).filter
        (fun f => (".png".toList).isSuffixOf f) = [] ∧
     mainModel wEmptyDir ("b.jpg".toList) ("all".toList) none =
        ⟨[], Msg.noIconsFound :: []⟩) :=
  ⟨⟨rfl, (claim8_all_mode_failures wStub ("b.jpg".toList) none).1 rfl⟩,
   ⟨by decide, by decide,
    (claim8_all_mode_failures wEmptyDir ("b.jpg".toList) none).2 (by decide) (by decide)⟩⟩

/-- Claim C9: when the icon argument lowercases to `'all'`, the explicit
output path has no effect on the result, and every written file uses the
derived output path of some enumerated icon. -/
theorem claim9_all_ignores_explicit_output (w : World) (bp icn : List Char)
    (out out' : Option (List Char)) (hall : pyLower icn = ("all".toList)) :
    mainModel w bp icn out = mainModel w bp icn out' ∧
    (∀ ev ∈ (mainModel w bp icn out).writes,
      ∃ ic ∈ (w.listDir iconPngDir).filter (fun f => (".png".toList).isSuffixOf f),
        ev.path = generateOutputPath bp ic) := by
  constructor
  · simp only [mainModel]
    rw [if_pos hall, if_pos hall]
  · intro ev hev
    by_cases hdir : w.isDir iconPngDir = true
    · rw [mainModel_all_writes w bp icn out hall hdir] at hev
      obtain ⟨ic, hic, hev2⟩ := List.mem_flatMap.mp hev
      exact ⟨ic, hic, addIcon_writes_path w bp ic ev hev2⟩
    · rw [mainModel_no_dir w bp icn out hall (by simpa using hdir)] at hev
      exact absurd hev (by simp)

/-- Witness for claim C9 at the uppercase token `ALL` with an explicit
output path, against the empty environment. -/
theorem claim9_witness :
    pyLower ("ALL".toList) = ("all".toList) ∧
    (mainModel wStub ("b.jpg".toList) ("ALL".toList) (some ("custom.png".toList)) =
       mainModel wStub ("b.jpg".toList) ("ALL".toList) none ∧
     ∀ ev ∈ (mainModel wStub ("b.jpg".toList) ("ALL".toList)
        (some ("custom.png".toList))).writes,
       ∃ ic ∈ (wStub.listDir iconPngDir).filter
          (fun f => (".png".toList).isSuffixOf f),
         ev.path = generateOutputPath ("b.jpg".toList) ic) :=
  ⟨by decide,
   claim9_all_ignores_explicit_output wStub ("b.jpg".toList) ("ALL".toList)
     (some ("custom.png".toList)) none (by decide)⟩

/-- Claim C10: an empty-string explicit output path behaves exactly like no
output path at all — `if not output_path:` is taken — so the derived path is
used for the write and returned; only a non-empty string overrides. -/
theorem claim10_empty_output_string (w : World) (bp icn : List Char) :
    addIconToSingleImage w bp icn (some []) = addIconToSingleImage w bp icn none ∧
    (∀ p, (addIconToSingleImage w bp icn (some [])).ret = some p →
      p = generateOutputPath bp icn ∧
      (addIconToSingleImage w bp icn (some [])).writes.all
        (fun ev => ev.path == p) = true) := by
  constructor
  · rfl
  · intro p hret
    cases hrun : runSingleE w bp icn (some []) with
    | error e =>
      rw [addIcon_of_error w bp icn (some []) e hrun] at hret
      exact absurd hret (by simp)
    | ok pe =>
      cases pe with
      | mk p' ev =>
        rw [addIcon_of_ok w bp icn (some []) p' ev hrun] at hret
        have hp : p' = p := by simpa using hret
        obtain ⟨hp', hpath, _⟩ := runSingleE_ok_inv w bp icn (some []) p' ev hrun
        have hderiv : p = generateOutputPath bp icn := by
          rw [← hp, hp']
          rfl
        refine ⟨hderiv, ?_⟩
        rw [addIcon_of_ok w bp icn (some []) p' ev hrun]
        simp [hpath, hp]

/-- Witness for claim C10 in the `wBatch` environment with icon `y.png` and
an explicit empty-string output path. -/
theorem claim10_witness :
    ((addIconToSingleImage wBatch ("base/photo.jpg".toList) ("y.png".toList)
        (some [])).ret = some ("base/photo_with_icon_y.jpg".toList)) ∧
    addIconToSingleImage wBatch ("base/photo.jpg".toList) ("y.png".toList) (some []) =
      addIconToSingleImage wBatch ("base/photo.jpg".toList) ("y.png".toList) none ∧
    (("base/photo_with_icon_y.jpg".toList) =
        generateOutputPath ("base/photo.jpg".toList) ("y.png".toList) ∧
     (addIconToSingleImage wBatch ("base/photo.jpg".toList) ("y.png".toList)
        (some [])).writes.all
       (fun ev => ev.path == ("base/photo_with_icon_y.jpg".toList)) = true) :=
  ⟨wBatch_y_single (some []) rfl,
   (claim10_empty_output_string wBatch ("base/photo.jpg".toList) ("y.png".toList)).1,
   (claim10_empty_output_string wBatch ("base/photo.jpg".toList) ("y.png".toList)).2
     ("base/photo_with_icon_y.jpg".toList) (wBatch_y_single (some []) rfl)⟩
